import Mathlib

/-!
Verification of the WebRTC signaling relay server (the wss-based Express
server: module-level piSocket and clientSocket slots, one message handler
per connection).

The embedding mirrors the source message handler:

  wss.on(connection, ws =>
    ws.on(message, message =>
      msg = JSON.parse(message)
      if msg.role == pi then piSocket = ws
      else if msg.role == client then clientSocket = ws
      if msg.type == offer and clientSocket then clientSocket.send(message)
      else if msg.type == answer and piSocket then piSocket.send(message)
      else if msg.type == ice then (msg.to == pi ? piSocket : clientSocket)?.send(message)))

Connections are identified by natural numbers.  An inbound frame carries
its raw bytes (modelled as a String) together with the outcome of
JSON.parse: either the frame is malformed (JSON.parse throws) or it parses
to a record of the fields the handler inspects (role, type, to).  Effects
record every transport call the handler makes; Effect.close is in the
vocabulary (the ws API offers it) but, as the proofs show, the source
never emits it.  The server registers no close handler on connections, so
a disconnect event reaches no server code; step models this.
-/

namespace Relay

abbrev ConnId := Nat

/-- Fields of a parsed inbound JSON message that the handler inspects.
Absent fields are none; other fields (sdp, candidate) are part of the raw
payload and never read by the relay. -/
structure Msg where
  role : Option String := none
  type : Option String := none
  toField : Option String := none
  deriving Repr, DecidableEq

/-- An inbound frame: the raw bytes together with the result of JSON.parse
on them, which either throws (malformed) or yields a parsed message. -/
inductive Frame where
  | malformed (raw : String)
  | wellFormed (raw : String) (msg : Msg)
  deriving Repr, DecidableEq

/-- The module-level mutable state of the server: the two role slots. -/
structure RelayState where
  piSocket : Option ConnId := none
  clientSocket : Option ConnId := none
  deriving Repr, DecidableEq

/-- Transport calls the handler can make on a connection.  The source
only ever calls send; close is included because the ws API offers it and
the spec discusses closing evicted transports. -/
inductive Effect where
  | send (dest : ConnId) (payload : String)
  | close (dest : ConnId)
  deriving Repr, DecidableEq

/-- Optional-chaining send: socket?.send(raw) is a no-op on a null slot
and a single send otherwise. -/
def sendTo : Option ConnId → String → List Effect
  | none, _ => []
  | some c, raw => [Effect.send c raw]

/-- The two role-registration branches of the handler:
if msg.role == pi then piSocket = ws else if msg.role == client then
clientSocket = ws. -/
def applyRegistration (ws : ConnId) (st : RelayState) (msg : Msg) : RelayState :=
  if msg.role = some "pi" then { st with piSocket := some ws }
  else if msg.role = some "client" then { st with clientSocket := some ws }
  else st

/-- The forwarding if-chain of the handler, evaluated against the state
after the registration branches ran:
if msg.type == offer and clientSocket then clientSocket.send(message)
else if msg.type == answer and piSocket then piSocket.send(message)
else if msg.type == ice then (msg.to == pi ? piSocket : clientSocket)?.send(message). -/
def forwardEffects (st : RelayState) (msg : Msg) (raw : String) : List Effect :=
  if msg.type = some "offer" ∧ st.clientSocket ≠ none then
    sendTo st.clientSocket raw
  else if msg.type = some "answer" ∧ st.piSocket ≠ none then
    sendTo st.piSocket raw
  else if msg.type = some "ice" then
    sendTo (if msg.toField = some "pi" then st.piSocket else st.clientSocket) raw
  else []

/-- The exception JSON.parse throws on malformed input.  The handler has
no try/catch, so the exception escapes the handler. -/
inductive ParseErr where
  | parseFail (raw : String)
  deriving Repr, DecidableEq

/-- The whole per-message handler body: JSON.parse, then the registration
branches, then the forwarding chain.  Returns the updated slots and the
list of transport calls made, or the uncaught exception. -/
def onMessage (ws : ConnId) (st : RelayState) (frame : Frame) :
    Except ParseErr (RelayState × List Effect) :=
  match frame with
  | .malformed raw => .error (.parseFail raw)
  | .wellFormed raw msg =>
      let st1 := applyRegistration ws st msg
      .ok (st1, forwardEffects st1 msg raw)

/-- Events the server can observe on a connection. -/
inductive Event where
  | message (ws : ConnId) (frame : Frame)
  | disconnect (ws : ConnId)
  deriving Repr, DecidableEq

/-- One server step.  The connection handler registers only a message
listener; no close listener exists, so a disconnect runs no server code:
the slots are untouched and nothing is sent. -/
def step (st : RelayState) (e : Event) : Except ParseErr (RelayState × List Effect) :=
  match e with
  | .message ws f => onMessage ws st f
  | .disconnect _ => .ok (st, [])

/-- The destination slot the forwarding chain reads for each forwardable
kind: offer reads the client slot, answer the pi slot, ice the slot named
by the to field (client when to is not pi). -/
def destSlot (st : RelayState) (msg : Msg) : Option ConnId :=
  if msg.type = some "offer" then st.clientSocket
  else if msg.type = some "answer" then st.piSocket
  else if msg.type = some "ice" then
    (if msg.toField = some "pi" then st.piSocket else st.clientSocket)
  else none

/-- Membership in a sendTo result forces the slot to be bound to the
destination and the effect to be a send of the given raw payload. -/
lemma mem_sendTo (o : Option ConnId) (raw : String) (e : Effect)
    (he : e ∈ sendTo o raw) : ∃ d, o = some d ∧ e = Effect.send d raw := by
  cases o with
  | none => simp [sendTo] at he
  | some c =>
      simp [sendTo] at he
      exact ⟨c, rfl, he⟩

/-- Every effect the forwarding chain produces is a send of the raw
inbound payload; in particular it never closes a connection. -/
lemma mem_forwardEffects (st : RelayState) (msg : Msg) (raw : String) (e : Effect)
    (he : e ∈ forwardEffects st msg raw) : ∃ d, e = Effect.send d raw := by
  unfold forwardEffects at he
  split_ifs at he
  all_goals
    first
      | exact (List.not_mem_nil e he).elim
      | (obtain ⟨d, _, hd⟩ := mem_sendTo _ _ _ he; exact ⟨d, hd⟩)

/-- On a well-formed frame the handler returns ok, with the state the
registration branches produce and the effects the forwarding chain
produces from that state. -/
lemma onMessage_wellFormed_ok (ws : ConnId) (st : RelayState) (raw : String) (msg : Msg)
    (st2 : RelayState) (effs : List Effect)
    (h : onMessage ws st (.wellFormed raw msg) = .ok (st2, effs)) :
    st2 = applyRegistration ws st msg ∧ effs = forwardEffects st2 msg raw := by
  simp only [onMessage, Except.ok.injEq, Prod.mk.injEq] at h
  obtain ⟨h1, h2⟩ := h
  subst h1
  exact ⟨rfl, h2.symm⟩

/-- Registering the same connection twice with the same message reaches a
fixed point of the registration branches. -/
lemma applyRegistration_idem (ws : ConnId) (st : RelayState) (msg : Msg) :
    applyRegistration ws (applyRegistration ws st msg) msg = applyRegistration ws st msg := by
  unfold applyRegistration
  split_ifs <;> rfl

/-- A message whose role field is neither pi nor client leaves the slots
untouched by the registration branches. -/
lemma applyRegistration_no_role (ws : ConnId) (st : RelayState) (msg : Msg)
    (h1 : msg.role ≠ some "pi") (h2 : msg.role ≠ some "client") :
    applyRegistration ws st msg = st := by
  unfold applyRegistration
  rw [if_neg h1, if_neg h2]

/-- C6: the relay implements the drop policy.  A message of kind offer,
answer or ice whose destination slot (as the forwarding chain reads it,
after the registration branches of the same call ran) is empty is
discarded: the handler returns ok with no effect at all, so nothing is
sent to any connection and the sender is not informed. -/
theorem drop_policy (ws : ConnId) (st : RelayState) (raw : String) (msg : Msg)
    (hkind : msg.type = some "offer" ∨ msg.type = some "answer" ∨ msg.type = some "ice")
    (hdest : destSlot (applyRegistration ws st msg) msg = none) :
    onMessage ws st (.wellFormed raw msg) = .ok (applyRegistration ws st msg, []) := by
  rcases hkind with h | h | h <;>
    simp [destSlot, h] at hdest <;>
    simp [onMessage, forwardEffects, h, hdest, sendTo]

theorem drop_policy_witness :
    onMessage 2 { piSocket := some 4, clientSocket := none }
      (.wellFormed "lateOffer" { type := some "offer" })
      = .ok ({ piSocket := some 4, clientSocket := none }, []) :=
  drop_policy 2 { piSocket := some 4, clientSocket := none } "lateOffer"
    { type := some "offer" } (Or.inl rfl) rfl

/-- C7: payload fidelity.  Every send the handler performs while
processing a well-formed frame carries exactly the raw inbound bytes; the
relay never mutates, re-serializes or alters the forwarded payload. -/
theorem payload_fidelity (ws : ConnId) (st : RelayState) (raw : String) (msg : Msg)
    (st2 : RelayState) (effs : List Effect)
    (h : onMessage ws st (.wellFormed raw msg) = .ok (st2, effs)) :
    ∀ d p, Effect.send d p ∈ effs → p = raw := by
  obtain ⟨-, heff⟩ := onMessage_wellFormed_ok ws st raw msg st2 effs h
  intro d p hmem
  rw [heff] at hmem
  obtain ⟨d2, hd⟩ := mem_forwardEffects _ _ _ _ hmem
  cases hd
  rfl

theorem payload_fidelity_witness :
    ("payloadBytes" : String) = "payloadBytes" :=
  payload_fidelity 0 { piSocket := none, clientSocket := some 3 } "payloadBytes"
    { type := some "offer" } { piSocket := none, clientSocket := some 3 }
    [Effect.send 3 "payloadBytes"] rfl 3 "payloadBytes" (by simp)

/-- C8: frame condition on the slots.  Processing any well-formed message
whose role field is neither pi nor client (so any offer, answer, ice or
unknown-kind message without a role field) leaves both slots exactly as
they were. -/
theorem slots_unchanged_without_role (ws : ConnId) (st : RelayState) (raw : String)
    (msg : Msg) (st2 : RelayState) (effs : List Effect)
    (h1 : msg.role ≠ some "pi") (h2 : msg.role ≠ some "client")
    (h : onMessage ws st (.wellFormed raw msg) = .ok (st2, effs)) :
    st2 = st := by
  obtain ⟨hst, -⟩ := onMessage_wellFormed_ok ws st raw msg st2 effs h
  rw [hst, applyRegistration_no_role ws st msg h1 h2]

theorem slots_unchanged_witness :
    ({ piSocket := some 1, clientSocket := some 2 } : RelayState)
      = { piSocket := some 1, clientSocket := some 2 } :=
  slots_unchanged_without_role 9 { piSocket := some 1, clientSocket := some 2 } "iceRaw"
    { type := some "ice" } { piSocket := some 1, clientSocket := some 2 }
    [Effect.send 2 "iceRaw"] (by simp) (by simp) rfl

/-- C9: idempotent re-registration.  If a connection registers a role (pi
or client) and the identical message is processed again from the same
connection, the second call leaves the slot state exactly as the first
call left it and closes no transport (no eviction effect). -/
theorem reregistration_idempotent (c : ConnId) (st : RelayState) (raw : String) (msg : Msg)
    (_hrole : msg.role = some "pi" ∨ msg.role = some "client")
    (st1 : RelayState) (effs1 : List Effect)
    (h1 : onMessage c st (.wellFormed raw msg) = .ok (st1, effs1))
    (st2 : RelayState) (effs2 : List Effect)
    (h2 : onMessage c st1 (.wellFormed raw msg) = .ok (st2, effs2)) :
    st2 = st1 ∧ ∀ d, Effect.close d ∉ effs2 := by
  obtain ⟨hs1, -⟩ := onMessage_wellFormed_ok c st raw msg st1 effs1 h1
  obtain ⟨hs2, heff2⟩ := onMessage_wellFormed_ok c st1 raw msg st2 effs2 h2
  have hfix : st2 = st1 := by
    rw [hs2, hs1, applyRegistration_idem]
  refine ⟨hfix, fun d hmem => ?_⟩
  rw [heff2] at hmem
  obtain ⟨d2, hd⟩ := mem_forwardEffects _ _ _ _ hmem
  exact Effect.noConfusion hd

theorem reregistration_idempotent_witness :
    ({ piSocket := some 4, clientSocket := none } : RelayState)
      = { piSocket := some 4, clientSocket := none }
    ∧ Effect.close 4 ∉ ([] : List Effect) :=
  ⟨(reregistration_idempotent 4 {} "regTwice" { role := some "pi" } (Or.inl rfl)
      { piSocket := some 4, clientSocket := none } [] rfl
      { piSocket := some 4, clientSocket := none } [] rfl).1,
    (reregistration_idempotent 4 {} "regTwice" { role := some "pi" } (Or.inl rfl)
      { piSocket := some 4, clientSocket := none } [] rfl
      { piSocket := some 4, clientSocket := none } [] rfl).2 4⟩

/-- For the three forwardable kinds the forwarding chain is exactly an
optional-chained send to the slot destSlot names in the state it reads:
the truthiness-guarded offer and answer branches and the optional-chained
ice branch all collapse to sendTo of that slot. -/
lemma forwardEffects_forwardable (st : RelayState) (msg : Msg) (raw : String)
    (htype : msg.type = some "offer" ∨ msg.type = some "answer" ∨ msg.type = some "ice") :
    forwardEffects st msg raw = sendTo (destSlot st msg) raw := by
  rcases htype with h | h | h
  · cases hc : st.clientSocket with
    | none => simp [forwardEffects, destSlot, h, hc, sendTo]
    | some c => simp [forwardEffects, destSlot, h, hc, sendTo]
  · cases hp : st.piSocket with
    | none => simp [forwardEffects, destSlot, h, hp, sendTo]
    | some c => simp [forwardEffects, destSlot, h, hp, sendTo]
  · simp [forwardEffects, destSlot, h]

/-- C10: a single message carrying both a role field (pi or client) and a
forwardable type (offer, answer or ice) is handled as registration
followed by forwarding within the same call, with the registration
taking effect before the destination slot is resolved: the resulting
state already binds the sender to the slot its role field names, and the
effects are exactly a send to the destination slot as read from that
post-registration state (so, for example, a pi registration combined
with an answer is delivered to the registering connection itself). -/
theorem registration_precedes_forwarding (ws : ConnId) (st : RelayState) (raw : String)
    (msg : Msg)
    (_hrole : msg.role = some "pi" ∨ msg.role = some "client")
    (htype : msg.type = some "offer" ∨ msg.type = some "answer" ∨ msg.type = some "ice")
    (st2 : RelayState) (effs : List Effect)
    (h : onMessage ws st (.wellFormed raw msg) = .ok (st2, effs)) :
    ((msg.role = some "pi" → st2.piSocket = some ws)
      ∧ (msg.role = some "client" → st2.clientSocket = some ws))
    ∧ effs = sendTo (destSlot st2 msg) raw := by
  obtain ⟨hst, heff⟩ := onMessage_wellFormed_ok ws st raw msg st2 effs h
  refine ⟨⟨fun hr => ?_, fun hr => ?_⟩, ?_⟩
  · rw [hst]
    simp [applyRegistration, hr]
  · rw [hst]
    simp [applyRegistration, hr]
  · rw [heff, forwardEffects_forwardable st2 msg raw htype]

theorem registration_precedes_forwarding_witness :
    (RelayState.piSocket { piSocket := some 6, clientSocket := none } = some 6)
    ∧ ([Effect.send 6 "ansCombo"]
        = sendTo (destSlot { piSocket := some 6, clientSocket := none }
            { role := some "pi", type := some "answer" }) "ansCombo") :=
  ⟨(registration_precedes_forwarding 6 { piSocket := none, clientSocket := none }
      "ansCombo" { role := some "pi", type := some "answer" }
      (Or.inl rfl) (Or.inr (Or.inl rfl))
      { piSocket := some 6, clientSocket := none } [Effect.send 6 "ansCombo"] rfl).1.1 rfl,
    (registration_precedes_forwarding 6 { piSocket := none, clientSocket := none }
      "ansCombo" { role := some "pi", type := some "answer" }
      (Or.inl rfl) (Or.inr (Or.inl rfl))
      { piSocket := some 6, clientSocket := none } [Effect.send 6 "ansCombo"] rfl).2⟩

/-- C1 counterexample: the destination is not the role opposite the
sender.  Connection 5 holds the client slot and connection 7 holds the pi
slot; when connection 5 sends an offer, the handler delivers it back to
connection 5 (the client slot), not to the pi slot, because the offer
branch always sends to clientSocket regardless of who the sender is. -/
theorem offer_from_client_slot_reflected :
    (RelayState.clientSocket { piSocket := some 7, clientSocket := some 5 } = some 5)
    ∧ onMessage 5 { piSocket := some 7, clientSocket := some 5 }
        (.wellFormed "offerRaw" { type := some "offer" })
      = .ok ({ piSocket := some 7, clientSocket := some 5 }, [Effect.send 5 "offerRaw"]) :=
  ⟨rfl, rfl⟩

/-- C1 amended: the destination slot is chosen by message type alone,
never by sender role.  Whenever processing a well-formed frame performs a
send, the destination is exactly the slot destSlot names for the type of
the message in the post-registration state: the client slot for offer,
the pi slot for answer, and the slot the to field names for ice. -/
theorem routing_is_by_type (ws : ConnId) (st : RelayState) (raw : String) (msg : Msg)
    (st2 : RelayState) (effs : List Effect) (d : ConnId) (p : String)
    (h : onMessage ws st (.wellFormed raw msg) = .ok (st2, effs))
    (hmem : Effect.send d p ∈ effs) :
    destSlot st2 msg = some d := by
  obtain ⟨-, heff⟩ := onMessage_wellFormed_ok ws st raw msg st2 effs h
  rw [heff] at hmem
  unfold forwardEffects at hmem
  split_ifs at hmem
  all_goals
    first
      | exact (List.not_mem_nil _ hmem).elim
      | (obtain ⟨d2, hslot, hd⟩ := mem_sendTo _ _ _ hmem
         cases hd
         simp_all [destSlot])

theorem routing_is_by_type_witness :
    destSlot { piSocket := some 8, clientSocket := some 5 } { type := some "answer" }
      = some 8 :=
  routing_is_by_type 5 { piSocket := some 8, clientSocket := some 5 } "ansRaw"
    { type := some "answer" } { piSocket := some 8, clientSocket := some 5 }
    [Effect.send 8 "ansRaw"] 8 "ansRaw" rfl (by simp)

/-- C2 counterexample: no registration check exists.  Connection 9 holds
neither slot (its role is unassigned), yet its offer is forwarded to the
client slot occupant, connection 3, instead of failing with
UnregisteredSenderError and being dropped. -/
theorem unregistered_sender_forwarded :
    (RelayState.piSocket { piSocket := none, clientSocket := some 3 } ≠ some 9
      ∧ RelayState.clientSocket { piSocket := none, clientSocket := some 3 } ≠ some 9)
    ∧ onMessage 9 { piSocket := none, clientSocket := some 3 }
        (.wellFormed "earlyOffer" { type := some "offer" })
      = .ok ({ piSocket := none, clientSocket := some 3 }, [Effect.send 3 "earlyOffer"]) :=
  ⟨⟨by simp, by simp⟩, rfl⟩

/-- C2 amended: the handler never inspects the sender.  For any message
without a role field (in particular any offer, answer or ice from a
connection that never registered), the result of the handler is
completely independent of which connection sent it: an unregistered
sender is treated exactly like a registered one and the message is
forwarded or dropped purely by the forwarding chain. -/
theorem no_unregistered_sender_check (ws ws2 : ConnId) (st : RelayState) (raw : String)
    (msg : Msg) (h1 : msg.role ≠ some "pi") (h2 : msg.role ≠ some "client") :
    onMessage ws st (.wellFormed raw msg) = onMessage ws2 st (.wellFormed raw msg) := by
  simp only [onMessage, applyRegistration_no_role ws st msg h1 h2,
    applyRegistration_no_role ws2 st msg h1 h2]

theorem no_unregistered_sender_check_witness :
    onMessage 11 { piSocket := none, clientSocket := some 2 }
      (.wellFormed "iceCand" { type := some "ice", toField := some "pi" })
      = onMessage 12 { piSocket := none, clientSocket := some 2 }
        (.wellFormed "iceCand" { type := some "ice", toField := some "pi" }) :=
  no_unregistered_sender_check 11 12 { piSocket := none, clientSocket := some 2 }
    "iceCand" { type := some "ice", toField := some "pi" } (by simp) (by simp)

/-- C3 counterexample: disconnect clears nothing.  With connection 0 in
the pi slot and connection 1 in the client slot, a disconnect of
connection 1 leaves the client slot still holding connection 1, and a
subsequent offer from connection 0 is still delivered to the
disconnected connection 1. -/
theorem disconnect_not_cleared :
    step { piSocket := some 0, clientSocket := some 1 } (.disconnect 1)
      = .ok ({ piSocket := some 0, clientSocket := some 1 }, [])
    ∧ onMessage 0 { piSocket := some 0, clientSocket := some 1 }
        (.wellFormed "offerAfter" { type := some "offer" })
      = .ok ({ piSocket := some 0, clientSocket := some 1 }, [Effect.send 1 "offerAfter"]) :=
  ⟨rfl, rfl⟩

/-- C3 amended: the server registers no close handler, so a disconnect
runs no relay code at all: both slots keep their (now possibly stale)
contents and no effect is produced; messages forwarded later are still
addressed to the stale slot occupant. -/
theorem disconnect_is_noop (st : RelayState) (c : ConnId) :
    step st (.disconnect c) = .ok (st, []) := rfl

/-- C4 counterexample: eviction closes nothing.  Connection 0 holds the
pi slot; connection 1 registers as pi.  The slot is overwritten to
connection 1 but the effect list is empty: no close of connection 0 is
ever issued. -/
theorem eviction_no_close :
    onMessage 1 { piSocket := some 0, clientSocket := none }
      (.wellFormed "regPi" { role := some "pi" })
      = .ok ({ piSocket := some 1, clientSocket := none }, [])
    ∧ Effect.close 0 ∉ ([] : List Effect) :=
  ⟨rfl, by simp⟩

/-- C4 amended: a registration to an occupied slot silently replaces the
occupant.  The registering connection becomes the sole holder of the
slot named by the role field, but no transport is ever closed: the
handler emits no close effect on any code path. -/
theorem slot_overwrite_without_close (ws : ConnId) (st : RelayState) (raw : String)
    (msg : Msg) (st2 : RelayState) (effs : List Effect)
    (h : onMessage ws st (.wellFormed raw msg) = .ok (st2, effs)) :
    (msg.role = some "pi" → st2.piSocket = some ws)
    ∧ (msg.role = some "client" → st2.clientSocket = some ws)
    ∧ ∀ d, Effect.close d ∉ effs := by
  obtain ⟨hst, heff⟩ := onMessage_wellFormed_ok ws st raw msg st2 effs h
  refine ⟨?_, ?_, fun d hmem => ?_⟩
  · intro hr
    rw [hst]
    simp [applyRegistration, hr]
  · intro hr
    rw [hst]
    simp [applyRegistration, hr]
  · rw [heff] at hmem
    obtain ⟨d2, hd⟩ := mem_forwardEffects _ _ _ _ hmem
    exact Effect.noConfusion hd

theorem slot_overwrite_without_close_witness :
    (RelayState.piSocket { piSocket := some 9, clientSocket := some 2 } = some 9)
    ∧ Effect.close 3 ∉ ([] : List Effect) :=
  ⟨(slot_overwrite_without_close 9 { piSocket := some 3, clientSocket := some 2 } "regRaw"
      { role := some "pi" } { piSocket := some 9, clientSocket := some 2 } [] rfl).1 rfl,
    (slot_overwrite_without_close 9 { piSocket := some 3, clientSocket := some 2 } "regRaw"
      { role := some "pi" } { piSocket := some 9, clientSocket := some 2 } [] rfl).2.2 3⟩

/-- C5 counterexample: the handler has no error branch.  A malformed
frame makes JSON.parse throw and the handler ends in the uncaught
exception instead of completing: processing is not total on arbitrary
inbound messages. -/
theorem malformed_message_uncaught :
    onMessage 0 {} (.malformed "not json") = .error (.parseFail "not json") := rfl

/-- C5 amended: the handler is total only on well-formed frames.  A
well-formed message always completes with ok (the registration update and
the forwarding sends), but a malformed message propagates the JSON.parse
exception out of the handler uncaught, since the source has no try or
catch around the parse. -/
theorem handler_total_only_on_wellformed (ws : ConnId) (st : RelayState) (frame : Frame) :
    (∀ raw msg, frame = .wellFormed raw msg →
      onMessage ws st frame
        = .ok (applyRegistration ws st msg,
            forwardEffects (applyRegistration ws st msg) msg raw))
    ∧ (∀ raw, frame = .malformed raw →
      onMessage ws st frame = .error (.parseFail raw)) := by
  constructor
  · rintro raw msg rfl
    rfl
  · rintro raw rfl
    rfl

theorem handler_totality_witness :
    onMessage 1 {} (.malformed "badBytes") = .error (.parseFail "badBytes")
    ∧ onMessage 1 {} (.wellFormed "goodBytes" { role := some "pi" })
      = .ok ({ piSocket := some 1, clientSocket := none }, []) :=
  ⟨(handler_total_only_on_wellformed 1 {} (.malformed "badBytes")).2 "badBytes" rfl,
    (handler_total_only_on_wellformed 1 {} (.wellFormed "goodBytes"
      { role := some "pi" })).1 "goodBytes" { role := some "pi" } rfl⟩

end Relay
